import Mathlib

/-!
Verification development for the audio recorder / live-transcription app
(`src/App.tsx`).  The definitions below are a shallow embedding of the
component's state and event handlers; each is annotated with the source
lines it is translated from.  React `useState` semantics are modelled by
explicit state passing; a value that an installed callback closes over at
the render in which it was created is captured into an explicit field at
the moment the callback is installed.
-/

namespace PilTong

/-- Capture source mode (App.tsx line 25: `useState<'mic' | 'system'>('mic')`). -/
inductive SourceMode
  | mic
  | system
deriving DecidableEq

/-- Audio constraints of a capture request (App.tsx lines 94-98 and 103-107). -/
structure AudioConstraints where
  echoCancellation : Bool
  noiseSuppression : Bool
  autoGainControl : Bool
deriving DecidableEq

/-- Video constraints of a capture request (App.tsx line 93: `video: \x7b width: 1, height: 1 \x7d`). -/
structure VideoConstraints where
  width : Nat
  height : Nat
deriving DecidableEq

/-- Which platform capture API the request goes to. -/
inductive CaptureKind
  | userMediaAudioOnly
  | displayMediaWithVideo
deriving DecidableEq

/-- A capture request as issued by `startRecording` (App.tsx lines 90-109). -/
structure CaptureRequest where
  kind : CaptureKind
  audio : AudioConstraints
  video : Option VideoConstraints
deriving DecidableEq

/-- The capture request issued for each source mode (App.tsx lines 90-109):
`system` uses `getDisplayMedia` with a nominal 1x1 video track and all audio
processing disabled; `mic` uses `getUserMedia`, audio only, all processing
enabled. -/
def captureRequest : SourceMode → CaptureRequest
  | SourceMode.system =>
    { kind := CaptureKind.displayMediaWithVideo
      audio := { echoCancellation := false, noiseSuppression := false, autoGainControl := false }
      video := some { width := 1, height := 1 } }
  | SourceMode.mic =>
    { kind := CaptureKind.userMediaAudioOnly
      audio := { echoCancellation := true, noiseSuppression := true, autoGainControl := true }
      video := none }

/-!
## Audio frame processing (App.tsx lines 144-158)

`scriptProcessor.onaudioprocess` converts each Float32 sample to a 16-bit
signed integer with `int16[i] = inputData[i] * 32768` (line 149).  Storing
into an `Int16Array` applies the JavaScript ToInt16 conversion: truncate the
number toward zero, take it mod 2^16 and reinterpret as signed — no clamping.
Samples are modelled as rationals; multiplication by the power of two 32768
is exact for every finite float, so ℚ is a faithful carrier here.
-/

/-- Truncation of a rational toward zero, as JavaScript ToIntegerOrInfinity
does for a finite number.  `Int.div` is T-division (rounds toward zero). -/
def ratTrunc (q : ℚ) : ℤ := Int.tdiv q.num (q.den : ℤ)

/-- Reinterpret an integer mod 2^16 as a signed 16-bit value (JS ToInt16). -/
def wrap16 (x : ℤ) : ℤ :=
  if 32768 ≤ x % 65536 then x % 65536 - 65536 else x % 65536

/-- The sample conversion at App.tsx line 149: multiply by 32768, then the
`Int16Array` store applies ToInt16.  No clamping anywhere. -/
def sampleToInt16 (q : ℚ) : ℤ := wrap16 (ratTrunc (q * 32768))

/-- The clamping conversion the spec recommends as the alternative; defined
only to show the code's conversion differs from it on out-of-range input. -/
def clampTo16 (q : ℚ) : ℤ := max (-32768) (min 32767 (ratTrunc (q * 32768)))

/-- Little-endian byte pair of a signed 16-bit value, as seen through
`new Uint8Array(int16.buffer)` (App.tsx line 151). -/
def int16LEBytes (v : ℤ) : List Nat :=
  [(v % 65536).toNat % 256, (v % 65536).toNat / 256]

/-- The frame payload before transport encoding: every sample converted and
laid out as consecutive little-endian byte pairs (App.tsx lines 146-151). -/
def framePayload (samples : List ℚ) : List Nat :=
  (samples.map fun q => int16LEBytes (sampleToInt16 q)).flatten

/-!
## Transport encoding (App.tsx lines 10-17)

`encode` builds a binary string from the bytes and applies `btoa`, i.e.
standard base64.
-/

/-- The base64 alphabet. -/
def base64Table : List Char :=
  "ABCDEFGHIJKLMNOPQRSTUVWXYZabcdefghijklmnopqrstuvwxyz0123456789+/".toList

/-- The base64 digit for a 6-bit value. -/
def b64char (n : Nat) : Char := base64Table.getD n 'A'

/-- Base64 of a byte list, three bytes to four digits, `=`-padded. -/
def btoaChars : List Nat → List Char
  | [] => []
  | [b0] => [b64char (b0 / 4), b64char (b0 % 4 * 16), '=', '=']
  | [b0, b1] => [b64char (b0 / 4), b64char (b0 % 4 * 16 + b1 / 16), b64char (b1 % 16 * 4), '=']
  | b0 :: b1 :: b2 :: rest =>
      b64char (b0 / 4) :: b64char (b0 % 4 * 16 + b1 / 16) ::
      b64char (b1 % 16 * 4 + b2 / 64) :: b64char (b2 % 64) :: btoaChars rest

/-- `encode` (App.tsx lines 10-17): bytes to a binary string, then `btoa`. -/
def encode (bytes : List Nat) : String := String.mk (btoaChars bytes)

/-!
## The outbound frame path and the session promise (App.tsx lines 117-158)

`startRecording` stores the pending connection promise in
`sessionPromiseRef.current` (line 136) before the audio graph is built
(lines 139-161), so every `onaudioprocess` firing sees the promise.  Each
frame handler runs `sessionPromiseRef.current?.then(session =>
session.sendRealtimeInput(...))` (lines 153-157).  JavaScript promise
semantics: a `.then` registered on a pending promise appends its callback to
the reaction list, and on resolution the reactions run in registration
order; a `.then` registered on an already-resolved promise enqueues the
callback as a microtask, which runs before the next audio event.  The model
below is that reaction queue: `pending` holds callbacks registered before
resolution, `sent` is the order of `sendRealtimeInput` calls on the wire.
-/

/-- A produced audio frame: the buffer of float samples handed to
`onaudioprocess` (line 145).  Its wire payload is `framePayload`. -/
abbrev Frame := List ℚ

/-- The outbound message of App.tsx lines 154-156: only a base64 payload and
a mime type — note there is no sequence-number field. -/
structure OutMsg where
  data : String
  mimeType : String
deriving DecidableEq

/-- The message built for one frame (lines 151 and 154-156). -/
def frameToMsg (f : Frame) : OutMsg :=
  { data := encode (framePayload f), mimeType := "audio/pcm;rate=16000" }

/-- Events of a frame-sending execution: a frame is produced by the audio
graph, or the session connection promise resolves. -/
inductive FEvent
  | produce (f : Frame)
  | resolve
deriving DecidableEq

/-- State of the session promise and its reaction queue. -/
structure PState where
  resolved : Bool
  pending : List Frame
  sent : List Frame
deriving DecidableEq

/-- One step of the frame-sending execution.  `produce` registers the send
callback: queued while the promise is pending (line 153), run as an
immediate microtask once resolved.  `resolve` runs all queued reactions in
registration order.  A promise resolves at most once; re-resolution is
vacuous because `pending` is already empty. -/
def fstep (s : PState) : FEvent → PState
  | FEvent.produce f =>
      if s.resolved then { s with sent := s.sent ++ [f] }
      else { s with pending := s.pending ++ [f] }
  | FEvent.resolve =>
      { s with resolved := true, sent := s.sent ++ s.pending, pending := [] }

/-- Initial promise state: connection pending, nothing queued or sent. -/
def initP : PState := { resolved := false, pending := [], sent := [] }

/-- Run the frame-sending execution from a given state. -/
def frunFrom (s : PState) (es : List FEvent) : PState := es.foldl fstep s

/-- Run the frame-sending execution from the start of a session. -/
def frun (es : List FEvent) : PState := frunFrom initP es

/-- The frames produced during an execution, in production order. -/
def producedOf (es : List FEvent) : List Frame :=
  es.filterMap fun e =>
    match e with
    | FEvent.produce f => some f
    | FEvent.resolve => none

/-- The on-wire message sequence of an execution. -/
def wireOf (es : List FEvent) : List OutMsg := (frun es).sent.map frameToMsg

/-!
## Component state and lifecycle (App.tsx lines 19-190)

React state hooks and refs of the component, as one record.  Closure
captures are explicit: `startRecording` is created at the render in which
the start button is clicked, so the `mediaRecorder.onstop` handler it
installs (lines 170-176) sees `recordingTime` and `sourceMode` as they were
at that render — these are copied into `pendingTime` / `pendingMode` when
the start click happens and into `onstopCapturedTime` when the handler is
installed.  `setRecordingTime(0)` (line 113) changes the state hook but not
the captured value.
-/

/-- One archived audio artifact (`setAudioData` plus the download at lines
171-174).  The binary blob and object URL are opaque platform handles and
carry no logic; the `duration` field is the one the spec constrains. -/
structure ArchivedAudioArtifact where
  duration : Nat
deriving DecidableEq

/-- The component's state: hooks (lines 20-26) and refs (lines 28-34),
together with the resource status they track. -/
structure AppState where
  isRecording : Bool
  recordingTime : Nat
  transcribedText : String
  sourceMode : SourceMode
  /-- an invocation of `startRecording` is between its entry and either its
  completion or its `catch` — i.e. the spec's Starting phase. -/
  startPending : Bool
  /-- `sourceMode` captured by the in-flight `startRecording` closure. -/
  pendingMode : Option SourceMode
  /-- `recordingTime` captured by the in-flight `startRecording` closure. -/
  pendingTime : Nat
  /-- `setStream` has stored the acquired stream (line 111). -/
  streamSet : Bool
  /-- the acquired stream's tracks are still live (stopped only in
  `mediaRecorder.onstop`, line 175). -/
  streamTracksLive : Bool
  /-- `mediaRecorderRef.current` is non-null (line 165). -/
  mediaRecorderPresent : Bool
  /-- the `MediaRecorder` is in its recording state (line 178). -/
  mediaRecorderActive : Bool
  /-- the `recordingTime` value the installed `onstop` closure will read
  (line 173). -/
  onstopCapturedTime : Nat
  /-- `audioCtxRef.current` is a non-closed `AudioContext` (line 140). -/
  audioCtxOpen : Bool
  /-- the wake lock is held (line 53). -/
  wakeLockHeld : Bool
  /-- the 1-second interval timer is running (line 182). -/
  timerRunning : Bool
  /-- `sessionPromiseRef.current` is non-null (line 136). -/
  sessionPromiseSet : Bool
  /-- the `onmessage` callback handed to `ai.live.connect` (line 125) is
  registered on a live remote session; `stopRecording` never closes the
  session or unregisters it (see the comment at line 81). -/
  sessionCallbackRegistered : Bool
  /-- every artifact produced so far (one `setAudioData` + download per
  `onstop` firing). -/
  artifacts : List ArchivedAudioArtifact
deriving DecidableEq

/-- The state at mount (lines 20-34): nothing held, mode `mic`. -/
def initialState : AppState where
  isRecording := false
  recordingTime := 0
  transcribedText := ""
  sourceMode := SourceMode.mic
  startPending := false
  pendingMode := none
  pendingTime := 0
  streamSet := false
  streamTracksLive := false
  mediaRecorderPresent := false
  mediaRecorderActive := false
  onstopCapturedTime := 0
  audioCtxOpen := false
  wakeLockHeld := false
  timerRunning := false
  sessionPromiseSet := false
  sessionCallbackRegistered := false
  artifacts := []

/-- `stopRecording` (App.tsx lines 60-84).  Guarded by `isRecording`
(line 61).  `mediaRecorder.stop()` (line 63) is a no-op on an inactive
recorder; on a recording one it fires `onstop` (lines 170-176), which
produces the artifact with the closure's captured `recordingTime` and stops
the stream's tracks.  The audio context is closed, the wake lock released,
the timer cleared, and the session promise reference nulled (line 82) — the
remote session itself is not closed and its `onmessage` stays registered.
`mediaRecorderRef` is not nulled either. -/
def stopRecording (s : AppState) : AppState :=
  if s.isRecording then
    { s with
      mediaRecorderActive := false
      artifacts :=
        if s.mediaRecorderPresent && s.mediaRecorderActive then
          s.artifacts ++ [{ duration := s.onstopCapturedTime }]
        else s.artifacts
      streamTracksLive :=
        if s.mediaRecorderPresent && s.mediaRecorderActive then false
        else s.streamTracksLive
      audioCtxOpen := false
      isRecording := false
      wakeLockHeld := false
      timerRunning := false
      sessionPromiseSet := false }
  else s

/-- The synchronous prefix of a `startRecording` invocation (line 86 up to
the first `await` at line 92/102): nothing is mutated yet, but the closure
has captured the render's `sourceMode` and `recordingTime`. -/
def startBegin (s : AppState) : AppState :=
  { s with
    startPending := true
    pendingMode := some s.sourceMode
    pendingTime := s.recordingTime }

/-- The points of `startRecording` whose failure the `catch` at lines
186-189 can observe: the stream acquisition `await` (lines 92/102), a
synchronous throw from `ai.live.connect` (line 117), from the
`AudioContext` construction (line 139), or from the `MediaRecorder`
construction (line 164). -/
inductive StartFailure
  | acquire
  | connect
  | audioGraph
  | recorder
deriving DecidableEq

/-- The remainder of the `startRecording` invocation (App.tsx lines 90-189),
given which stage (if any) throws.  The `catch` block (lines 186-189) only
logs and alerts: it undoes nothing, so every mutation made before the
failing stage persists — in particular an already-acquired stream keeps its
live tracks.  On full success: stream stored, transcript and clock reset
(lines 112-113), session promise stored with its callbacks (lines 117-136),
audio graph built (lines 139-161), recorder created and started with
`onstop` capturing the closure's `recordingTime` (lines 164-178),
`isRecording` set, wake lock requested (failure there is caught internally
at lines 52-57; the successful case is modelled), timer started. -/
def startFinish (fail : Option StartFailure) (s : AppState) : AppState :=
  match fail with
  | some StartFailure.acquire =>
      { s with startPending := false }
  | some StartFailure.connect =>
      { s with
        startPending := false
        streamSet := true
        streamTracksLive := true
        transcribedText := ""
        recordingTime := 0 }
  | some StartFailure.audioGraph =>
      { s with
        startPending := false
        streamSet := true
        streamTracksLive := true
        transcribedText := ""
        recordingTime := 0
        sessionPromiseSet := true
        sessionCallbackRegistered := true }
  | some StartFailure.recorder =>
      { s with
        startPending := false
        streamSet := true
        streamTracksLive := true
        transcribedText := ""
        recordingTime := 0
        sessionPromiseSet := true
        sessionCallbackRegistered := true
        audioCtxOpen := true }
  | none =>
      { s with
        startPending := false
        streamSet := true
        streamTracksLive := true
        transcribedText := ""
        recordingTime := 0
        sessionPromiseSet := true
        sessionCallbackRegistered := true
        audioCtxOpen := true
        mediaRecorderPresent := true
        mediaRecorderActive := true
        onstopCapturedTime := s.pendingTime
        isRecording := true
        wakeLockHeld := true
        timerRunning := true }

/-- One firing of the 1-second interval (App.tsx lines 182-184); the
functional update `prev => prev + 1` reads the current state, so no closure
staleness here.  The interval exists only between start and stop. -/
def tick (s : AppState) : AppState :=
  if s.timerRunning then { s with recordingTime := s.recordingTime + 1 } else s

/-- Delivery of one transcript delta: the `onmessage` callback (App.tsx
lines 125-131) appends the text to the transcript whenever it is still
registered on the live session. -/
def deliverDelta (t : String) (s : AppState) : AppState :=
  if s.sessionCallbackRegistered then
    { s with transcribedText := s.transcribedText ++ t }
  else s

/-- A click on a source-mode tab (App.tsx lines 213-230): the buttons carry
`disabled=\x7bisRecording\x7d`, so the click is ignored exactly when
`isRecording` is true. -/
def selectMode (m : SourceMode) (s : AppState) : AppState :=
  if s.isRecording then s else { s with sourceMode := m }

/-- The spec's RecordingState enum, read off the component state: Active
while `isRecording`; Starting while a `startRecording` invocation is in
flight; `stopRecording` is synchronous, so Stopping is never observable. -/
inductive RecordingState
  | idle
  | starting
  | active
  | stopping
deriving DecidableEq

/-- Map the component state to the spec's state machine. -/
def recordingStateOf (s : AppState) : RecordingState :=
  if s.isRecording then RecordingState.active
  else if s.startPending then RecordingState.starting
  else RecordingState.idle

/-- Observable events of a run of the component. -/
inductive Event
  | startOk
  | tick
  | stopEv
  | delta (t : String)
deriving DecidableEq

/-- Step the component state by one event; a successful start is
`startBegin` immediately followed by `startFinish none`. -/
def stepEvent (s : AppState) : Event → AppState
  | Event.startOk => startFinish none (startBegin s)
  | Event.tick => tick s
  | Event.stopEv => stopRecording s
  | Event.delta t => deliverDelta t s

/-- Run a sequence of events from the mount state. -/
def run (es : List Event) : AppState := es.foldl stepEvent initialState

/-- Whether an event is a successful start. -/
def isStartEv : Event → Bool
  | Event.startOk => true
  | _ => false

/-- The transcript deltas of an event sequence, in arrival order. -/
def deltasOf (es : List Event) : List String :=
  es.filterMap fun e =>
    match e with
    | Event.delta t => some t
    | _ => none

/-- Concatenation of a list of strings, in order. -/
def strConcat : List String → String
  | [] => ""
  | t :: ts => t ++ strConcat ts

/-!
## Helper lemmas
-/

/-- `stopRecording` touches neither the transcript nor the registration of
the remote `onmessage` callback. -/
theorem stop_keeps_transcript (s : AppState) :
    (stopRecording s).transcribedText = s.transcribedText
    ∧ (stopRecording s).sessionCallbackRegistered = s.sessionCallbackRegistered := by
  by_cases h : s.isRecording = true <;> simp [stopRecording, h]

/-- A timer tick touches neither the transcript nor the callback
registration. -/
theorem tick_keeps_transcript (s : AppState) :
    (tick s).transcribedText = s.transcribedText
    ∧ (tick s).sessionCallbackRegistered = s.sessionCallbackRegistered := by
  by_cases h : s.timerRunning = true <;> simp [tick, h]

/-- Delta delivery keeps the callback registered and, while it is
registered, appends the delta to the transcript. -/
theorem deliver_appends (s : AppState) (t : String) (h : s.sessionCallbackRegistered = true) :
    (deliverDelta t s).transcribedText = s.transcribedText ++ t
    ∧ (deliverDelta t s).sessionCallbackRegistered = true := by
  simp [deliverDelta, h]

/-- Running start-free events from a state with a registered callback
appends exactly the concatenation of the deltas, in arrival order. -/
theorem foldl_transcript (post : List Event) :
    ∀ s : AppState, s.sessionCallbackRegistered = true →
      post.all (fun e => !isStartEv e) = true →
      (post.foldl stepEvent s).transcribedText = s.transcribedText ++ strConcat (deltasOf post) := by
  induction post with
  | nil =>
      intro s _ _
      simp [deltasOf, strConcat, String.append_empty]
  | cons e rest ih =>
      intro s hreg hall
      rw [List.all_cons, Bool.and_eq_true] at hall
      cases e with
      | startOk => simp [isStartEv] at hall
      | tick =>
          have h2 := tick_keeps_transcript s
          rw [List.foldl_cons]
          show (rest.foldl stepEvent (tick s)).transcribedText = _
          rw [ih (tick s) (h2.2.trans hreg) hall.2, h2.1]
          rfl
      | stopEv =>
          have h2 := stop_keeps_transcript s
          rw [List.foldl_cons]
          show (rest.foldl stepEvent (stopRecording s)).transcribedText = _
          rw [ih (stopRecording s) (h2.2.trans hreg) hall.2, h2.1]
          rfl
      | delta t =>
          have h2 := deliver_appends s t hreg
          rw [List.foldl_cons]
          show (rest.foldl stepEvent (deliverDelta t s)).transcribedText = _
          rw [ih (deliverDelta t s) h2.2 hall.2, h2.1]
          show s.transcribedText ++ t ++ strConcat (deltasOf rest)
              = s.transcribedText ++ strConcat (t :: deltasOf rest)
          rw [String.append_assoc]
          rfl

/-!
## Claim theorems
-/

/-- Claim C4: `stop()` is idempotent — called while Idle it changes nothing,
and a second consecutive call adds no observable change beyond the first
effective call's results. -/
theorem stop_idempotent (s : AppState) :
    (s.isRecording = false → stopRecording s = s)
    ∧ stopRecording (stopRecording s) = stopRecording s := by
  constructor
  · intro h
    simp [stopRecording, h]
  · by_cases h : s.isRecording = true <;> simp [stopRecording, h]

/-- Witness for C4 at the Idle mount state. -/
theorem stop_idempotent_witness :
    stopRecording initialState = initialState
    ∧ stopRecording (stopRecording initialState) = stopRecording initialState :=
  ⟨(stop_idempotent initialState).1 rfl, (stop_idempotent initialState).2⟩

/-- Claim C10: `stopRecording` leaves the transcript text unchanged, leaves
the remote session's `onmessage` callback registered (it only nulls the
local promise reference), and a delta delivered after `stop()` is appended
exactly as it would have been before the stop. -/
theorem stop_leaves_transcript_path_intact (s : AppState) (t : String) :
    (stopRecording s).transcribedText = s.transcribedText
    ∧ (stopRecording s).sessionCallbackRegistered = s.sessionCallbackRegistered
    ∧ (deliverDelta t (stopRecording s)).transcribedText
        = (deliverDelta t s).transcribedText := by
  refine ⟨(stop_keeps_transcript s).1, (stop_keeps_transcript s).2, ?_⟩
  by_cases h : s.sessionCallbackRegistered = true
  · rw [(deliver_appends (stopRecording s) t ((stop_keeps_transcript s).2.trans h)).1,
        (deliver_appends s t h).1, (stop_keeps_transcript s).1]
  · have h1 : s.sessionCallbackRegistered = false := by
      revert h; cases s.sessionCallbackRegistered <;> simp
    have h2 : (stopRecording s).sessionCallbackRegistered = false :=
      (stop_keeps_transcript s).2.trans h1
    simp [deliverDelta, h1, h2, (stop_keeps_transcript s).1]

/-- Counterexample to claim C9 as stated: immediately after `startRecording`
is invoked (the spec's Starting state — not Idle), the mode buttons are not
disabled, because `disabled=\x7bisRecording\x7d` is still false; a click
changes the mode. -/
theorem mode_change_accepted_while_starting :
    recordingStateOf (startBegin initialState) ≠ RecordingState.idle
    ∧ (selectMode SourceMode.system (startBegin initialState)).sourceMode = SourceMode.system
    ∧ (startBegin initialState).sourceMode = SourceMode.mic := by
  refine ⟨by decide, rfl, rfl⟩

/-- Claim C9 as amended: mode clicks are ignored exactly while the recorder
is Active (`isRecording` true) — then the mode is unchanged; while
`isRecording` is false (Idle, but also the asynchronous Starting window) a
click sets the mode. -/
theorem mode_locked_only_while_active (s : AppState) (m : SourceMode) :
    (s.isRecording = true → selectMode m s = s)
    ∧ (recordingStateOf s = RecordingState.active → selectMode m s = s)
    ∧ (s.isRecording = false → (selectMode m s).sourceMode = m) := by
  by_cases h : s.isRecording = true
  · refine ⟨fun _ => by simp [selectMode, h], fun _ => by simp [selectMode, h], ?_⟩
    intro hf
    exact absurd (h.symm.trans hf) (by decide)
  · have hb : s.isRecording = false := by
      revert h; cases s.isRecording <;> simp
    refine ⟨fun ht => absurd ht h, ?_, fun _ => by simp [selectMode, hb]⟩
    intro hact
    exfalso
    unfold recordingStateOf at hact
    rw [hb] at hact
    by_cases hp : s.startPending = true <;> simp [hp] at hact

/-- Witness for C9's amended theorem: ignored in a concrete Active state,
effective in the Idle mount state. -/
theorem mode_locked_only_while_active_witness :
    selectMode SourceMode.system (startFinish none (startBegin initialState))
      = startFinish none (startBegin initialState)
    ∧ (selectMode SourceMode.system initialState).sourceMode = SourceMode.system :=
  ⟨(mode_locked_only_while_active (startFinish none (startBegin initialState))
      SourceMode.system).1 rfl,
   (mode_locked_only_while_active initialState SourceMode.system).2.2 rfl⟩

/-- Claim C8: the capture request per mode — microphone: `getUserMedia`,
audio only, echo cancellation / noise suppression / auto gain all enabled;
system: `getDisplayMedia` with a nominal 1x1 video track and all three
audio-processing constraints disabled. -/
theorem capture_request_constraints :
    (captureRequest SourceMode.mic).kind = CaptureKind.userMediaAudioOnly
    ∧ (captureRequest SourceMode.mic).video = none
    ∧ (captureRequest SourceMode.mic).audio.echoCancellation = true
    ∧ (captureRequest SourceMode.mic).audio.noiseSuppression = true
    ∧ (captureRequest SourceMode.mic).audio.autoGainControl = true
    ∧ (captureRequest SourceMode.system).kind = CaptureKind.displayMediaWithVideo
    ∧ (captureRequest SourceMode.system).video = some { width := 1, height := 1 }
    ∧ (captureRequest SourceMode.system).audio.echoCancellation = false
    ∧ (captureRequest SourceMode.system).audio.noiseSuppression = false
    ∧ (captureRequest SourceMode.system).audio.autoGainControl = false :=
  ⟨rfl, rfl, rfl, rfl, rfl, rfl, rfl, rfl, rfl, rfl⟩

/-- Evaluation for claim C3.  First half: when stream acquisition itself
fails, the state is Idle and nothing is held — no stream, no session
promise, no audio context (as the claim says).  Second half, the divergence:
when a stage after acquisition throws (here `ai.live.connect`), the `catch`
at App.tsx lines 186-189 only logs and alerts, so although the state is
Idle, the acquired stream's tracks are still live and the stream reference
is still stored — resources are held and never released. -/
theorem start_failure_leaves_stream_live :
    (recordingStateOf (startFinish (some StartFailure.acquire) (startBegin initialState))
        = RecordingState.idle
      ∧ (startFinish (some StartFailure.acquire) (startBegin initialState)).streamTracksLive = false
      ∧ (startFinish (some StartFailure.acquire) (startBegin initialState)).streamSet = false
      ∧ (startFinish (some StartFailure.acquire) (startBegin initialState)).sessionPromiseSet = false
      ∧ (startFinish (some StartFailure.acquire) (startBegin initialState)).audioCtxOpen = false)
    ∧ (recordingStateOf (startFinish (some StartFailure.connect) (startBegin initialState))
        = RecordingState.idle
      ∧ (startFinish (some StartFailure.connect) (startBegin initialState)).streamTracksLive = true
      ∧ (startFinish (some StartFailure.connect) (startBegin initialState)).streamSet = true) := by
  refine ⟨⟨by decide, rfl, rfl, rfl, rfl⟩, ⟨by decide, rfl, rfl⟩⟩

/-- Evaluation for claim C1 at its failing input: a first recording that is
started, runs for three clock ticks and is stopped.  Exactly one artifact is
produced, but its duration is 0 — the `recordingTime` value the `onstop`
closure captured when `startRecording` was invoked — while the state
machine's elapsed time at the moment of stop is 3. -/
theorem archived_duration_stale_at_stop :
    (run [Event.startOk, Event.tick, Event.tick, Event.tick]).recordingTime = 3
    ∧ (run [Event.startOk, Event.tick, Event.tick, Event.tick, Event.stopEv]).artifacts
        = [{ duration := 0 }]
    ∧ (run [Event.startOk, Event.tick, Event.tick, Event.tick, Event.stopEv]).recordingTime = 3 := by
  refine ⟨rfl, by decide, rfl⟩

/-- Claim C5: at every point during a recording — any event sequence after a
successful start that contains no further start — the transcript equals the
concatenation, in arrival order, of the deltas received since that start
(the start cleared the buffer, App.tsx line 112). -/
theorem transcript_concats_deltas_since_start (pre post : List Event)
    (h : post.all (fun e => !isStartEv e) = true) :
    (run (pre ++ Event.startOk :: post)).transcribedText = strConcat (deltasOf post) := by
  unfold run
  rw [List.foldl_append, List.foldl_cons]
  have hreg : (stepEvent (pre.foldl stepEvent initialState) Event.startOk).sessionCallbackRegistered
      = true := rfl
  rw [foldl_transcript post (stepEvent (pre.foldl stepEvent initialState) Event.startOk) hreg h]
  show "" ++ strConcat (deltasOf post) = strConcat (deltasOf post)
  exact String.empty_append _

/-- Witness for C5: the spec's own scenario — deltas "안" then "녕" arrive
during a recording; the transcript reads "안녕". -/
theorem transcript_concats_deltas_since_start_witness :
    (run ([] ++ Event.startOk :: [Event.delta "안", Event.tick, Event.delta "녕"])).transcribedText
      = "안녕" :=
  (transcript_concats_deltas_since_start []
    [Event.delta "안", Event.tick, Event.delta "녕"] (by decide)).trans (by decide)

/-- The reaction-queue invariant of the session promise: sent plus pending
frames are exactly the produced frames in production order; once resolved,
nothing is left pending; resolution is monotone and is reached by any
execution containing the resolve event. -/
theorem frunFrom_invariant (es : List FEvent) :
    ∀ s : PState, (s.resolved = true → s.pending = []) →
      ((frunFrom s es).resolved = true → (frunFrom s es).pending = [])
      ∧ (frunFrom s es).sent ++ (frunFrom s es).pending = (s.sent ++ s.pending) ++ producedOf es
      ∧ (s.resolved = true → (frunFrom s es).resolved = true)
      ∧ (FEvent.resolve ∈ es → (frunFrom s es).resolved = true) := by
  induction es with
  | nil =>
      intro s hs
      refine ⟨hs, by simp [frunFrom, producedOf], fun h => h, ?_⟩
      intro h
      cases h
  | cons e rest ih =>
      intro s hs
      have hstep : frunFrom s (e :: rest) = frunFrom (fstep s e) rest := rfl
      cases e with
      | resolve =>
          obtain ⟨h1, h2, h3, h4⟩ := ih (fstep s FEvent.resolve) (fun _ => rfl)
          rw [hstep]
          refine ⟨h1, ?_, fun _ => h3 rfl, fun _ => h3 rfl⟩
          rw [h2]
          show s.sent ++ s.pending ++ [] ++ producedOf rest
              = (s.sent ++ s.pending) ++ producedOf (FEvent.resolve :: rest)
          simp [producedOf]
      | produce f =>
          by_cases hr : s.resolved = true
          · have hpend : s.pending = [] := hs hr
            have hf : fstep s (FEvent.produce f) = { s with sent := s.sent ++ [f] } := by
              simp [fstep, hr]
            obtain ⟨h1, h2, h3, h4⟩ := ih (fstep s (FEvent.produce f))
              (by rw [hf]; intro _; exact hpend)
            rw [hstep]
            refine ⟨h1, ?_, fun _ => h3 (by rw [hf]; exact hr), fun hm => ?_⟩
            · rw [h2, hf]
              show s.sent ++ [f] ++ s.pending ++ producedOf rest
                  = (s.sent ++ s.pending) ++ producedOf (FEvent.produce f :: rest)
              rw [hpend]
              simp [producedOf]
            · rcases List.mem_cons.mp hm with hm1 | hm2
              · cases hm1
              · exact h4 hm2
          · have hrf : s.resolved = false := by
              revert hr; cases s.resolved <;> simp
            have hf : fstep s (FEvent.produce f) = { s with pending := s.pending ++ [f] } := by
              simp [fstep, hrf]
            obtain ⟨h1, h2, h3, h4⟩ := ih (fstep s (FEvent.produce f))
              (by rw [hf]; intro hh; exact absurd (hrf.symm.trans hh) (by decide))
            rw [hstep]
            refine ⟨h1, ?_, fun hrr => absurd (hrf.symm.trans hrr) (by decide), fun hm => ?_⟩
            · rw [h2, hf]
              show s.sent ++ (s.pending ++ [f]) ++ producedOf rest
                  = (s.sent ++ s.pending) ++ producedOf (FEvent.produce f :: rest)
              simp [producedOf]
            · rcases List.mem_cons.mp hm with hm1 | hm2
              · cases hm1
              · exact h4 hm2

/-- Once the connection has resolved, everything produced has been sent, in
production order, with nothing left queued. -/
theorem frun_sent_eq_produced (es : List FEvent) (h : FEvent.resolve ∈ es) :
    (frun es).sent = producedOf es ∧ (frun es).pending = [] := by
  obtain ⟨h1, h2, _h3, h4⟩ := frunFrom_invariant es initP (fun _ => rfl)
  have hres := h4 h
  have hp := h1 hres
  refine ⟨?_, hp⟩
  rw [hp, List.append_nil] at h2
  simpa using h2

/-- Claim C2: every frame produced during a session — in particular each of
the k frames produced before the connection finished — is sent once the
connection completes, none are dropped, and the on-wire send order equals
the production order. -/
theorem early_frames_flushed_in_order (es : List FEvent) (h : FEvent.resolve ∈ es) :
    (frun es).sent = producedOf es ∧ (frun es).pending = [] :=
  frun_sent_eq_produced es h

/-- Witness for C2: two frames produced while the connection is still
pending are both sent, in order, after it resolves. -/
theorem early_frames_flushed_in_order_witness :
    (frun [FEvent.produce [(1 : ℚ)], FEvent.produce [(2 : ℚ)], FEvent.resolve]).sent
      = [[(1 : ℚ)], [(2 : ℚ)]]
    ∧ (frun [FEvent.produce [(1 : ℚ)], FEvent.produce [(2 : ℚ)], FEvent.resolve]).pending = [] :=
  ⟨(early_frames_flushed_in_order
      [FEvent.produce [(1 : ℚ)], FEvent.produce [(2 : ℚ)], FEvent.resolve]
      (List.Mem.tail _ (List.Mem.tail _ (List.Mem.head _)))).1.trans rfl,
   (early_frames_flushed_in_order
      [FEvent.produce [(1 : ℚ)], FEvent.produce [(2 : ℚ)], FEvent.resolve]
      (List.Mem.tail _ (List.Mem.tail _ (List.Mem.head _)))).2⟩

/-- Counterexample to claim C6 as stated: the outbound message (App.tsx
lines 154-156) carries only the base64 payload and the mime type, so no
sequence number whatsoever can be read off the wire — two identical frames
(e.g. silence) yield byte-identical messages, so no tagging function is
strictly increasing along every session's wire. -/
theorem outbound_msgs_carry_no_seq_tag :
    ¬ ∃ tag : OutMsg → Nat,
        ∀ es : List FEvent, (wireOf es).Chain' (fun a b => tag a < tag b) := by
  rintro ⟨tag, htag⟩
  have h := htag [FEvent.produce [(0 : ℚ)], FEvent.produce [(0 : ℚ)], FEvent.resolve]
  have hw : wireOf [FEvent.produce [(0 : ℚ)], FEvent.produce [(0 : ℚ)], FEvent.resolve]
      = [frameToMsg [(0 : ℚ)], frameToMsg [(0 : ℚ)]] := rfl
  rw [hw] at h
  exact absurd (List.chain'_cons.mp h).1 (lt_irrefl _)

/-- Claim C6 as amended: frames reach the session in production order — the
i-th frame produced is the i-th message on the wire, so the wire position is
a strictly increasing, never-skipped implicit sequence number — but the
message itself carries no explicit sequence-number tag. -/
theorem wire_order_eq_production_order (es : List FEvent) (h : FEvent.resolve ∈ es) :
    wireOf es = (producedOf es).map frameToMsg := by
  unfold wireOf
  rw [(frun_sent_eq_produced es h).1]

/-- Witness for C6's amended theorem on a one-frame session. -/
theorem wire_order_eq_production_order_witness :
    wireOf [FEvent.produce [(1 : ℚ)], FEvent.resolve] = [frameToMsg [(1 : ℚ)]] :=
  (wire_order_eq_production_order [FEvent.produce [(1 : ℚ)], FEvent.resolve]
    (List.Mem.tail _ (List.Mem.head _))).trans rfl

/-- Each converted sample contributes exactly two payload bytes. -/
theorem framePayload_length_eq (l : List ℚ) : (framePayload l).length = 2 * l.length := by
  induction l with
  | nil => rfl
  | cons a t ih =>
      have hc : framePayload (a :: t) = int16LEBytes (sampleToInt16 a) ++ framePayload t := rfl
      rw [hc, List.length_append, ih]
      show 2 + 2 * t.length = 2 * (a :: t).length
      rw [List.length_cons]
      omega

/-- Claim C7: a 4096-sample input buffer yields exactly 8192 payload bytes
before transport encoding; each sample is converted by multiplying by 32768
and reinterpreting mod 2^16 — out-of-range inputs are not clamped (1.0 wraps
to -32768 where clamping would give 32767, and 2.0 wraps to 0). -/
theorem frame_payload_size_and_unclamped (samples : List ℚ) (h : samples.length = 4096) :
    (framePayload samples).length = 8192
    ∧ framePayload samples = (samples.map fun q => int16LEBytes (sampleToInt16 q)).flatten
    ∧ sampleToInt16 1 = -32768
    ∧ clampTo16 1 = 32767
    ∧ sampleToInt16 2 = 0 := by
  refine ⟨?_, rfl, ?_, ?_, ?_⟩
  · rw [framePayload_length_eq, h]
  · norm_num [sampleToInt16, ratTrunc, wrap16]
  · norm_num [clampTo16, ratTrunc]
  · norm_num [sampleToInt16, ratTrunc, wrap16]

/-- Witness for C7 on a concrete 4096-sample (silent) buffer. -/
theorem frame_payload_size_and_unclamped_witness :
    (framePayload (List.replicate 4096 (0 : ℚ))).length = 8192
    ∧ framePayload (List.replicate 4096 (0 : ℚ))
        = ((List.replicate 4096 (0 : ℚ)).map fun q => int16LEBytes (sampleToInt16 q)).flatten
    ∧ sampleToInt16 1 = -32768
    ∧ clampTo16 1 = 32767
    ∧ sampleToInt16 2 = 0 :=
  frame_payload_size_and_unclamped (List.replicate 4096 (0 : ℚ))
    (by rw [List.length_replicate])

end PilTong
